import Mathlib

/-!
Verification of the merkle-run instrumented runner (`merklerun.py`).

The development shallowly embeds the program: byte strings are `List Nat`
(code points / byte values), Python dictionaries destined for
`json.dumps(..., sort_keys=True, separators=(",", ":"))` are modelled by the
`JVal` type together with a canonical serializer, and SHA-256 is implemented
in full (FIPS 180-4) so that hash values are computed, never axiomatized.
Ambient effects (the monotonic clock, `os.path.abspath`, the filesystem,
the presence of numpy, the behaviour of the target script) enter as
explicit parameters.
-/

set_option maxRecDepth 100000

/-- Code points of a string literal, used to write byte strings readably.
All concrete strings appearing in the program are ASCII, for which code
points and UTF-8 bytes coincide. -/
def ascii (s : String) : List Nat := s.toList.map Char.toNat

/-- UTF-8 encoding of one code point (Python `str.encode()`). -/
def utf8Char (c : Nat) : List Nat :=
  if c < 128 then [c]
  else if c < 2048 then [192 + c / 64, 128 + c % 64]
  else if c < 65536 then [224 + c / 4096, 128 + (c / 64) % 64, 128 + c % 64]
  else [240 + c / 262144, 128 + (c / 4096) % 64, 128 + (c / 64) % 64, 128 + c % 64]

/-- UTF-8 encoding of a code-point list (Python `str.encode()`). -/
def utf8Encode (s : List Nat) : List Nat := s.foldr (fun c acc => utf8Char c ++ acc) []

/-- Decimal digits of a natural number (auxiliary, fuel-driven). -/
def natTokAux : Nat → Nat → List Nat
  | 0, _ => []
  | fuel + 1, n => if n < 10 then [48 + n] else natTokAux fuel (n / 10) ++ [48 + n % 10]

/-- Decimal token of a natural number, as Python serializes a nonnegative int. -/
def natTok (n : Nat) : List Nat := natTokAux (n + 1) n

/-- Decimal token of an integer, as Python serializes an int. -/
def intTok (i : Int) : List Nat := if i < 0 then 45 :: natTok i.natAbs else natTok i.toNat

/-! ### SHA-256 (FIPS 180-4), over byte lists -/

/-- Truncation to a 32-bit word. -/
def w32 (n : Nat) : Nat := n % 4294967296

/-- Rotate a 32-bit word right by `n` bits. -/
def rotr (n w : Nat) : Nat := w32 ((w >>> n) ||| (w <<< (32 - n)))

/-- SHA-256 Sigma0. -/
def bigS0 (x : Nat) : Nat := (rotr 2 x) ^^^ (rotr 13 x) ^^^ (rotr 22 x)

/-- SHA-256 Sigma1. -/
def bigS1 (x : Nat) : Nat := (rotr 6 x) ^^^ (rotr 11 x) ^^^ (rotr 25 x)

/-- SHA-256 sigma0. -/
def smallS0 (x : Nat) : Nat := (rotr 7 x) ^^^ (rotr 18 x) ^^^ (x >>> 3)

/-- SHA-256 sigma1. -/
def smallS1 (x : Nat) : Nat := (rotr 17 x) ^^^ (rotr 19 x) ^^^ (x >>> 10)

/-- SHA-256 Ch. -/
def chW (x y z : Nat) : Nat := (x &&& y) ^^^ ((x ^^^ 4294967295) &&& z)

/-- SHA-256 Maj. -/
def majW (x y z : Nat) : Nat := (x &&& y) ^^^ (x &&& z) ^^^ (y &&& z)

/-- The sixty-four SHA-256 round constants of FIPS 180-4, in decimal. -/
def K256 : List Nat :=
  [1116352408, 1899447441, 3049323471, 3921009573, 961987163, 1508970993,
   2453635748, 2870763221, 3624381080, 310598401, 607225278, 1426881987,
   1925078388, 2162078206, 2614888103, 3248222580, 3835390401, 4022224774,
   264347078, 604807628, 770255983, 1249150122, 1555081692, 1996064986,
   2554220882, 2821834349, 2952996808, 3210313671, 3336571891, 3584528711,
   113926993, 338241895, 666307205, 773529912, 1294757372, 1396182291,
   1695183700, 1986661051, 2177026350, 2456956037, 2730485921, 2820302411,
   3259730800, 3345764771, 3516065817, 3600352804, 4094571909, 275423344,
   430227734, 506948616, 659060556, 883997877, 958139571, 1322822218,
   1537002063, 1747873779, 1955562222, 2024104815, 2227730452, 2361852424,
   2428436474, 2756734187, 3204031479, 3329325298]

/-- The eight SHA-256 initial hash words of FIPS 180-4, in decimal. -/
def H0 : List Nat :=
  [1779033703, 3144134277, 1013904242, 2773480762,
   1359893119, 2600822924, 528734635, 1541459225]

/-- Big-endian bytes of a number, fixed width. -/
def bytesBE : Nat → Nat → List Nat
  | 0, _ => []
  | k + 1, n => bytesBE k (n / 256) ++ [n % 256]

/-- SHA-256 message padding. -/
def padMsg (msg : List Nat) : List Nat :=
  let l := msg.length
  let k := (64 + 55 - (l % 64)) % 64
  msg ++ [128] ++ List.replicate k 0 ++ bytesBE 8 (8 * l)

/-- Pack bytes into big-endian 32-bit words. -/
def toWords : List Nat → List Nat
  | b0 :: b1 :: b2 :: b3 :: rest => (((b0 * 256 + b1) * 256 + b2) * 256 + b3) :: toWords rest
  | _ => []

/-- Message-schedule extension; the accumulator holds words newest first. -/
def schedAux : Nat → List Nat → List Nat
  | 0, acc => acc.reverse
  | n + 1, acc =>
      let w := w32 (smallS1 (acc.getD 1 0) + acc.getD 6 0 + smallS0 (acc.getD 14 0) + acc.getD 15 0)
      schedAux n (w :: acc)

/-- The 64-entry message schedule of one block. -/
def schedule (ws : List Nat) : List Nat := schedAux 48 ws.reverse

/-- One SHA-256 round on the state [a,b,c,d,e,f,g,h]. -/
def roundFn (st : List Nat) (k w : Nat) : List Nat :=
  match st with
  | [a, b, c, d, e, f, g, h] =>
      let t1 := w32 (h + bigS1 e + chW e f g + k + w)
      let t2 := w32 (bigS0 a + majW a b c)
      [w32 (t1 + t2), a, b, c, w32 (d + t1), e, f, g]
  | _ => st

/-- All 64 rounds. -/
def rounds : List Nat → List Nat → List Nat → List Nat
  | st, k :: ks, w :: ws => rounds (roundFn st k w) ks ws
  | st, _, _ => st

/-- Compression of one 64-byte block. -/
def compressBlock (h : List Nat) (block : List Nat) : List Nat :=
  let st := rounds h K256 (schedule (toWords block))
  List.zipWith (fun x y => w32 (x + y)) h st

/-- Split into 64-byte chunks; the fuel is the number of chunks. -/
def chunks : Nat → List Nat → List (List Nat)
  | 0, _ => []
  | n + 1, l => l.take 64 :: chunks n (l.drop 64)

/-- SHA-256 digest (32 bytes) of a byte list. -/
def sha256 (msg : List Nat) : List Nat :=
  let p := padMsg msg
  let hs := (chunks (p.length / 64) p).foldl compressBlock H0
  hs.foldr (fun h acc => bytesBE 4 h ++ acc) []

/-- Lowercase hex digit. -/
def hexChar (n : Nat) : Nat := if n < 10 then 48 + n else 87 + n

/-- Lowercase hex digest of a byte list, as ASCII codes (hashlib `hexdigest`). -/
def hexdigest (msg : List Nat) : List Nat :=
  (sha256 msg).foldr (fun b acc => hexChar (b / 16) :: hexChar (b % 16) :: acc) []

/-! ### JSON values and Python's canonical serialization -/

/-- JSON-serializable Python values as the program builds them.  Strings are
code-point lists; numbers carry the token `json.dumps` emits for them (for the
ints of this program that is the decimal representation; for the rounded float
`t` the token is an ambient input). -/
inductive JVal where
  | str (s : List Nat)
  | num (tok : List Nat)
  | bool (b : Bool)
  | null
  | arr (xs : List JVal)
  | obj (kvs : List (List Nat × JVal))

mutual

/-- Structural boolean equality of JSON values (Python `==` on these values). -/
def jbeq : JVal → JVal → Bool
  | .str a, .str b => a == b
  | .num a, .num b => a == b
  | .bool a, .bool b => a == b
  | .null, .null => true
  | .arr a, .arr b => jbeqArr a b
  | .obj a, .obj b => jbeqObj a b
  | _, _ => false

/-- Elementwise equality of JSON arrays. -/
def jbeqArr : List JVal → List JVal → Bool
  | [], [] => true
  | x :: xs, y :: ys => jbeq x y && jbeqArr xs ys
  | _, _ => false

/-- Pairwise equality of JSON objects (order-sensitive, enough for this
program where compared objects are built identically). -/
def jbeqObj : List (List Nat × JVal) → List (List Nat × JVal) → Bool
  | [], [] => true
  | (k1, v1) :: xs, (k2, v2) :: ys => k1 == k2 && jbeq v1 v2 && jbeqObj xs ys
  | _, _ => false

end

/-- JSON string escaping of one code point, after Python `json` with
`ensure_ascii=True`: the two-character escapes of the ESCAPE_DCT, `uXXXX`
escapes for other control and non-printable-ASCII characters. -/
def escapeChar (c : Nat) : List Nat :=
  if c = 34 then [92, 34]
  else if c = 92 then [92, 92]
  else if c = 8 then [92, 98]
  else if c = 9 then [92, 116]
  else if c = 10 then [92, 110]
  else if c = 12 then [92, 102]
  else if c = 13 then [92, 114]
  else if c < 32 || 127 ≤ c then
    [92, 117, hexChar (c / 4096 % 16), hexChar (c / 256 % 16), hexChar (c / 16 % 16), hexChar (c % 16)]
  else [c]

/-- A JSON string literal with quotes and escaping. -/
def serializeStr (s : List Nat) : List Nat :=
  34 :: s.foldr (fun c acc => escapeChar c ++ acc) [] ++ [34]

/-- Strict lexicographic order on code-point lists (Python `<` on str). -/
def lexLt : List Nat → List Nat → Bool
  | [], [] => false
  | [], _ :: _ => true
  | _ :: _, [] => false
  | a :: as, b :: bs => if a < b then true else if b < a then false else lexLt as bs

/-- Insert into a key-sorted list of already-serialized object entries. -/
def insertKV (kv : List Nat × List Nat) : List (List Nat × List Nat) → List (List Nat × List Nat)
  | [] => [kv]
  | x :: rest => if lexLt x.1 kv.1 then x :: insertKV kv rest else kv :: x :: rest

/-- Sort serialized object entries by key (`sort_keys=True`; keys of the
program's dictionaries are unique, so order among equals is irrelevant). -/
def sortKVs (l : List (List Nat × List Nat)) : List (List Nat × List Nat) :=
  l.foldr insertKV []

/-- Join serialized object entries with the compact separators `","`, `":"`
and the closing brace. -/
def joinObj : List (List Nat × List Nat) → List Nat
  | [] => [125]
  | [(k, sv)] => serializeStr k ++ 58 :: sv ++ [125]
  | (k, sv) :: x :: rest => serializeStr k ++ 58 :: sv ++ 44 :: joinObj (x :: rest)

mutual

/-- Canonical serialization, byte for byte what
`json.dumps(d, sort_keys=True, separators=(",", ":")).encode()` produces on
the ASCII data of this program. -/
def serialize : JVal → List Nat
  | .str s => serializeStr s
  | .num tok => tok
  | .bool true => ascii "true"
  | .bool false => ascii "false"
  | .null => ascii "null"
  | .arr xs => 91 :: serializeArr xs
  | .obj kvs => 123 :: joinObj (sortKVs (serializeKVs kvs))

/-- Serialize array elements, comma-separated, with the closing bracket. -/
def serializeArr : List JVal → List Nat
  | [] => [93]
  | [x] => serialize x ++ [93]
  | x :: y :: rest => serialize x ++ 44 :: serializeArr (y :: rest)

/-- Serialize the values of object entries (sorting happens afterwards,
which agrees with Python sorting the items first: entries are independent). -/
def serializeKVs : List (List Nat × JVal) → List (List Nat × List Nat)
  | [] => []
  | (k, v) :: rest => (k, serialize v) :: serializeKVs rest

end

/-- Dictionary lookup (Python `dict.get`): first entry with the given key. -/
def lookupKV (k : List Nat) : List (List Nat × JVal) → Option JVal
  | [] => none
  | (k2, v) :: rest => if k2 = k then some v else lookupKV k rest

/-- `e.get(k)` on an event dictionary; `none` on non-dictionaries. -/
def jget (e : JVal) (k : List Nat) : Option JVal :=
  match e with
  | .obj kvs => lookupKV k kvs
  | _ => none

/-- Equality of optional values (Python `==` where a missing key reads as
`None`). -/
def jbeqOpt : Option JVal → Option JVal → Bool
  | none, none => true
  | some a, some b => jbeq a b
  | _, _ => false

/-! ### The event logger with merkle chain (`EventLogger`) -/

/-- The sixty-four ASCII zeros seeding the chain (`"0" * 64`). -/
def zeros64 : List Nat := List.replicate 64 48

/-- Mutable state of `EventLogger`: the chained events list and the running
previous hash.  The wall-clock start, seed, policy and environment snapshot
are carried separately since they never influence chaining. -/
structure EventLogger where
  events : List JVal
  prev_hash : List Nat

/-- A fresh logger (`EventLogger.__init__`): no events, all-zero seed hash. -/
def initLogger : EventLogger := { events := [], prev_hash := zeros64 }

/-- `EventLogger._hash_dict`: sha256 hexdigest of the canonical JSON bytes. -/
def hash_dict (d : JVal) : List Nat := hexdigest (serialize d)

/-- The pure computation inside `EventLogger._chain`: sha256 hexdigest of the
previous chain hash concatenated with the hash of the event's canonical form. -/
def chainStep (prev : List Nat) (event : JVal) : List Nat :=
  hexdigest (prev ++ hash_dict event)

/-- The event dictionary before the chain hash is embedded:
`{"t": rel, "kind": kind, **fields}`.  The rounded monotonic time token for
the i-th appended event is the ambient input `ts i`. -/
def eventBase (ts : Nat → List Nat) (st : EventLogger) (kind : List Nat)
    (fields : List (List Nat × JVal)) : List (List Nat × JVal) :=
  (ascii "t", JVal.num (ts st.events.length)) :: (ascii "kind", JVal.str kind) :: fields

/-- The stored event: the base dictionary with `event["chain"]` added. -/
def eventOf (ts : Nat → List Nat) (st : EventLogger) (kind : List Nat)
    (fields : List (List Nat × JVal)) : JVal :=
  JVal.obj (eventBase ts st kind fields ++
    [(ascii "chain", JVal.str (chainStep st.prev_hash (JVal.obj (eventBase ts st kind fields))))])

/-- `EventLogger.log`: chain the event and append it. -/
def EventLogger.log (ts : Nat → List Nat) (st : EventLogger) (kind : List Nat)
    (fields : List (List Nat × JVal)) : EventLogger :=
  { events := st.events ++ [eventOf ts st kind fields],
    prev_hash := chainStep st.prev_hash (JVal.obj (eventBase ts st kind fields)) }

/-- A sequence of `log` calls. -/
def logMany (ts : Nat → List Nat) (st : EventLogger)
    (items : List (List Nat × List (List Nat × JVal))) : EventLogger :=
  items.foldl (fun s it => EventLogger.log ts s it.1 it.2) st

/-- The manifest dictionary (`EventLogger.manifest`) as a structure; its
`root_hash` is `_hash_dict({"events": self.events})`. -/
structure Manifest where
  started_at_utc : List Nat
  seed : Int
  allow_net : Bool
  env : JVal
  events : List JVal
  root_hash : List Nat

/-- `EventLogger.manifest`: package the run and commit to the event list only. -/
def EventLogger.manifest (startWall : List Nat) (seed : Int) (allow_net : Bool)
    (env : JVal) (st : EventLogger) : Manifest :=
  { started_at_utc := startWall, seed := seed, allow_net := allow_net, env := env,
    events := st.events,
    root_hash := hash_dict (JVal.obj [(ascii "events", JVal.arr st.events)]) }


/-! ### Python exceptions and outcomes -/

/-- Exceptions as the runner observes them: the `PermissionError` the socket
shim raises, or an arbitrary exception of the target with its `repr` given
ambiently. -/
inductive PyExc where
  | permissionError (msg : List Nat)
  | other (reprStr : List Nat)
deriving DecidableEq

/-- Python `repr` of an exception: `TypeName('message')` for the shim's
`PermissionError`; for opaque target exceptions the repr is carried verbatim. -/
def pyRepr : PyExc → List Nat
  | .permissionError msg => ascii "PermissionError(" ++ [39] ++ msg ++ [39, 41]
  | .other r => r

/-- How the target's top-level execution ends. -/
inductive PyOutcome where
  | ok
  | exc (e : PyExc)

/-! ### The file interceptor (`IOShim`, `patch_open`) -/

/-- A payload passed to `write`: Python `str` (code points) or `bytes`. -/
inductive PyData where
  | str (s : List Nat)
  | bytes (b : List Nat)

/-- The bytes a payload contributes: text is encoded first (`b.encode()`). -/
def pyEncode : PyData → List Nat
  | .str s => utf8Encode s
  | .bytes b => b

/-- State of an `IOShim` wrapper: the wrapped raw handle (opaque token), the
constructor arguments, the running byte count and the bytes fed to the
running hasher (hashlib state modelled by the accumulated input, whose
digest is the incremental digest). -/
structure IOShim where
  f : Nat
  path : List Nat
  mode : List Nat
  written : Nat
  hashed : List Nat

/-- `IOShim.write`: encode text, bump the count, feed the hasher, delegate to
the raw handle (the raw binary write is assumed to accept all bytes and
return their count, the boundary behaviour of a healthy file object). -/
def IOShim.write (sh : IOShim) (payload : PyData) : IOShim × Nat :=
  let b := pyEncode payload
  ({ sh with written := sh.written + b.length, hashed := sh.hashed ++ b }, b.length)

/-- A sequence of `write` calls. -/
def IOShim.writeAll (sh : IOShim) (ps : List PyData) : IOShim :=
  ps.foldl (fun s p => (IOShim.write s p).1) sh

/-- Whether a mode string mentions writing, appending or exclusive creation
(`"w" in mode or "a" in mode or "x" in mode`). -/
def modeWAX (mode : List Nat) : Bool :=
  mode.contains 119 || mode.contains 97 || mode.contains 120

/-- `IOShim.close`: close the raw handle, then (finally) emit
`file_write_close` when the mode wrote; `abspath` is the ambient
`os.path.abspath(self._path)`. -/
def IOShim.close (ts : Nat → List Nat) (st : EventLogger) (sh : IOShim)
    (abspath : List Nat) : EventLogger :=
  if modeWAX sh.mode then
    EventLogger.log ts st (ascii "file_write_close")
      [(ascii "path", JVal.str abspath),
       (ascii "bytes", JVal.num (natTok sh.written)),
       (ascii "sha256", JVal.str (hexdigest sh.hashed))]
  else st

/-- What `patch_open`'s `open_wrapper` hands back. -/
inductive OpenResult where
  | shim (sh : IOShim)
  | raw (f : Nat)

/-- `open_wrapper`: log the open (hashing existing files opened for read,
via the ambient filesystem answers `fileExists`, `fsize`, `fsha`), call the
original open (raw handle token `f`), and wrap write-mode handles. -/
def open_wrapper (ts : Nat → List Nat) (st : EventLogger)
    (path abspath mode : List Nat) (fileExists : Bool) (fsize : Nat)
    (fsha : List Nat) (f : Nat) : EventLogger × OpenResult :=
  let st1 :=
    if mode.contains 114 && fileExists && mode.contains 98 then
      EventLogger.log ts st (ascii "file_open_read")
        [(ascii "path", JVal.str abspath), (ascii "mode", JVal.str mode),
         (ascii "bytes", JVal.num (natTok fsize)), (ascii "sha256", JVal.str fsha)]
    else if mode.contains 114 && fileExists then
      EventLogger.log ts st (ascii "file_open_read")
        [(ascii "path", JVal.str abspath), (ascii "mode", JVal.str mode),
         (ascii "bytes", JVal.num (natTok fsize)), (ascii "sha256", JVal.str fsha)]
    else
      EventLogger.log ts st (ascii "file_open")
        [(ascii "path", JVal.str abspath), (ascii "mode", JVal.str mode)]
  if modeWAX mode then
    (st1, OpenResult.shim { f := f, path := path, mode := mode, written := 0, hashed := [] })
  else
    (st1, OpenResult.raw f)

/-! ### The network interceptor (`SocketShim`) -/

/-- A real network operation delegated to the original socket implementation. -/
inductive RealCall where
  | connect (host : List Nat) (port : Nat)
  | send (data : List Nat)
  | recv (bufsize : Nat)
deriving DecidableEq

/-- The message of the policy violation (`"network disabled by merkle-run"`). -/
def netMsg : List Nat := ascii "network disabled by merkle-run"

/-- `SocketShim.connect`: under a deny policy log `net_block` and raise;
otherwise log `net_connect` and delegate.  The middle component lists the
real operations performed. -/
def SocketShim.connect (allow_net : Bool) (ts : Nat → List Nat) (st : EventLogger)
    (host : List Nat) (port : Nat) : EventLogger × List RealCall × Except PyExc Unit :=
  if !allow_net then
    (EventLogger.log ts st (ascii "net_block")
       [(ascii "host", JVal.str host), (ascii "port", JVal.num (natTok port))],
     [], Except.error (PyExc.permissionError netMsg))
  else
    (EventLogger.log ts st (ascii "net_connect")
       [(ascii "host", JVal.str host), (ascii "port", JVal.num (natTok port))],
     [RealCall.connect host port], Except.ok ())

/-- `SocketShim.send` on a bytes payload. -/
def SocketShim.send (allow_net : Bool) (ts : Nat → List Nat) (st : EventLogger)
    (data : List Nat) : EventLogger × List RealCall × Except PyExc Nat :=
  if !allow_net then
    (EventLogger.log ts st (ascii "net_block_send")
       [(ascii "bytes", JVal.num (natTok data.length))],
     [], Except.error (PyExc.permissionError netMsg))
  else
    (EventLogger.log ts st (ascii "net_send")
       [(ascii "bytes", JVal.num (natTok data.length)),
        (ascii "sha256", JVal.str (hexdigest data))],
     [RealCall.send data], Except.ok data.length)

/-- `SocketShim.recv`; `recvData` is the ambient answer of the real receive. -/
def SocketShim.recv (allow_net : Bool) (ts : Nat → List Nat) (st : EventLogger)
    (bufsize : Nat) (recvData : List Nat) :
    EventLogger × List RealCall × Except PyExc (List Nat) :=
  if !allow_net then
    (EventLogger.log ts st (ascii "net_block_recv")
       [(ascii "req", JVal.num (natTok bufsize))],
     [], Except.error (PyExc.permissionError netMsg))
  else
    (EventLogger.log ts st (ascii "net_recv")
       [(ascii "bytes", JVal.num (natTok recvData.length)),
        (ascii "sha256", JVal.str (hexdigest recvData))],
     [RealCall.recv bufsize], Except.ok recvData)

/-! ### Process-wide capability state and the orchestrator -/

/-- A value held by one of the process-wide capability bindings
(`builtins.open`, `socket.socket`, `subprocess.Popen`): either an original
implementation (opaque token) or one of the three shims. -/
inductive CapVal where
  | real (id : Nat)
  | openShim
  | socketShim
  | popenShim
deriving DecidableEq

/-- The process-wide state `run_instrumented` mutates and must restore: the
three capability bindings and `sys.argv`. -/
structure Glob where
  openImpl : CapVal
  socketImpl : CapVal
  popenImpl : CapVal
  argv : List (List Nat)
deriving DecidableEq

/-- Ambient inputs of one run: the serialized token of the rounded relative
time `round(time.monotonic() - start_mono, 6)` for the i-th log call, the
wall-clock start string, the environment snapshot, `os.path.abspath(target)`,
and whether numpy is importable. -/
structure Ambient where
  ts : Nat → List Nat
  startWall : List Nat
  env : JVal
  targetAbs : List Nat
  numpyPresent : Bool

/-- What the target script does when executed with a given argv tail: the
events its boundary operations push through the installed interceptors, in
order, and how its top level ends. -/
structure RunBehavior where
  emits : List (List Nat × List (List Nat × JVal))
  outcome : PyOutcome

/-- `seed_all`: seed the always-present generator, then numpy when importable
(`rng_seed` twice) and otherwise log `rng_seed_skip`. -/
def seed_all (seed : Int) (numpyPresent : Bool) (ts : Nat → List Nat)
    (st : EventLogger) : EventLogger :=
  let st1 := EventLogger.log ts st (ascii "rng_seed")
    [(ascii "lib", JVal.str (ascii "random")), (ascii "seed", JVal.num (intTok seed))]
  if numpyPresent then
    EventLogger.log ts st1 (ascii "rng_seed")
      [(ascii "lib", JVal.str (ascii "numpy")), (ascii "seed", JVal.num (intTok seed))]
  else
    EventLogger.log ts st1 (ascii "rng_seed_skip") [(ascii "lib", JVal.str (ascii "numpy"))]

/-- The argv tail `args_line.split() if args_line else []` (both `None` and
the empty string are falsy). -/
def isSpaceByte (c : Nat) : Bool := c = 32 || c = 9 || c = 10 || c = 13 || c = 11 || c = 12

/-- Helper of `pySplit`: accumulate the current word reversed. -/
def splitAux : List Nat → List Nat → List (List Nat)
  | [], cur => if cur.isEmpty then [] else [cur.reverse]
  | c :: rest, cur =>
      if isSpaceByte c then
        if cur.isEmpty then splitAux rest [] else cur.reverse :: splitAux rest []
      else splitAux rest (c :: cur)

/-- Python `str.split()` with no arguments: split on whitespace runs. -/
def pySplit (s : List Nat) : List (List Nat) := splitAux s []

/-- The argv tail constructed by `run_instrumented`. -/
def argvTailOf : Option (List Nat) → List (List Nat)
  | none => []
  | some s => if s.isEmpty then [] else pySplit s

/-- The logger state after seeding, `begin`, and the target's own events,
i.e. everything `run_instrumented` logs before the `end` event. -/
def loggerBeforeEnd (seed : Int) (amb : Ambient) (tail : List (List Nat))
    (emits : List (List Nat × List (List Nat × JVal))) : EventLogger :=
  logMany amb.ts
    (EventLogger.log amb.ts (seed_all seed amb.numpyPresent amb.ts initLogger)
      (ascii "begin")
      [(ascii "target", JVal.str amb.targetAbs),
       (ascii "args", JVal.arr (tail.map JVal.str))])
    emits

/-- Result of `run_instrumented`: the returned manifest or the propagated
exception, the process-wide state after the `finally` block, and (for
specification purposes) the final internal logger state. -/
structure RunResult where
  outcome : Except PyExc Manifest
  glob : Glob
  logger : EventLogger

/-- `run_instrumented`: construct the logger, install the three interceptors,
seed, swap argv, log `begin`, run the target, log `end` (normally or on the
propagating exception), restore everything, and return the manifest or
re-raise. -/
def run_instrumented (target : List Nat) (args_line : Option (List Nat))
    (seed : Int) (allow_net : Bool) (amb : Ambient)
    (behavior : List (List Nat) → RunBehavior) (g : Glob) : RunResult :=
  let undo_open := g.openImpl
  let g1 := { g with openImpl := CapVal.openShim }
  let undo_sock := g1.socketImpl
  let g2 := { g1 with socketImpl := CapVal.socketShim }
  let undo_popen := g2.popenImpl
  let g3 := { g2 with popenImpl := CapVal.popenShim }
  let old_argv := g3.argv
  let tail := argvTailOf args_line
  let g4 := { g3 with argv := target :: tail }
  let beh := behavior tail
  let l3 := loggerBeforeEnd seed amb tail beh.emits
  match beh.outcome with
  | PyOutcome.ok =>
      let l4 := EventLogger.log amb.ts l3 (ascii "end")
        [(ascii "status", JVal.str (ascii "ok"))]
      let g5 := { g4 with openImpl := undo_open, socketImpl := undo_sock,
                          popenImpl := undo_popen, argv := old_argv }
      { outcome := Except.ok (EventLogger.manifest amb.startWall seed allow_net amb.env l4),
        glob := g5, logger := l4 }
  | PyOutcome.exc e =>
      let l4 := EventLogger.log amb.ts l3 (ascii "end")
        [(ascii "status", JVal.str (ascii "exception")),
         (ascii "error", JVal.str (pyRepr e))]
      let g5 := { g4 with openImpl := undo_open, socketImpl := undo_sock,
                          popenImpl := undo_popen, argv := old_argv }
      { outcome := Except.error e, glob := g5, logger := l4 }

/-! ### Verify (`verify_run`) -/

/-- One entry of the divergence list: a field mismatch at an index (the
`kind` short-circuit entry uses the key `"kind"`), or the final
length-mismatch entry. -/
inductive DiffEntry where
  | field (index : Nat) (key : List Nat) (ref : Option JVal) (now : Option JVal)
  | len (ref : Nat) (now : Nat)

/-- The fixed tuple of compared fields. -/
def sixKeys : List (List Nat) :=
  [ascii "path", ascii "sha256", ascii "bytes", ascii "cmd", ascii "host", ascii "port"]

/-- Per-index comparison: `kind` first with short-circuit, then the six
fields via `.get` (a key missing on one side reads as `None` and compares
unequal to any present value). -/
def comparePair (i : Nat) (ea eb : JVal) : List DiffEntry :=
  if !jbeqOpt (jget ea (ascii "kind")) (jget eb (ascii "kind")) then
    [DiffEntry.field i (ascii "kind") (jget ea (ascii "kind")) (jget eb (ascii "kind"))]
  else
    sixKeys.foldl (fun acc k =>
      if jbeqOpt (jget ea k) (jget eb k) then acc
      else acc ++ [DiffEntry.field i k (jget ea k) (jget eb k)]) []

/-- The comparison loop of `verify_run`: indices up to the shorter length,
then one length-mismatch entry when the lengths differ. -/
def compareEvents (a b : List JVal) : List DiffEntry :=
  let diffs := (List.range (min a.length b.length)).foldl
    (fun acc i => acc ++ comparePair i (a.getD i JVal.null) (b.getD i JVal.null)) []
  if a.length = b.length then diffs else diffs ++ [DiffEntry.len a.length b.length]

/-- The returned comparison dictionary. -/
structure VerifyResult where
  ok : Bool
  diffs : List DiffEntry
  reference_root : Option JVal
  now_root : Option JVal

/-- Package the comparison (`ok` iff no divergence was collected). -/
def verdictOf (a b : List JVal) (rroot nroot : Option JVal) : VerifyResult :=
  let diffs := compareEvents a b
  { ok := diffs.isEmpty, diffs := diffs, reference_root := rroot, now_root := nroot }

/-- The `events` list of a loaded reference manifest (`ref["events"]`;
total here, with theorems assuming well-formed references). -/
def refEventsD (ref : JVal) : List JVal :=
  match jget ref (ascii "events") with
  | some (JVal.arr l) => l
  | _ => []

/-- The strings of a JSON array, for `" ".join(...)` (the program only joins
arrays of strings). -/
def strsOfArr : List JVal → List (List Nat)
  | [] => []
  | JVal.str s :: rest => s :: strsOfArr rest
  | _ :: rest => [] :: strsOfArr rest

/-- `" ".join`. -/
def joinSpace : List (List Nat) → List Nat
  | [] => []
  | [s] => s
  | s :: r :: rest => s ++ 32 :: joinSpace (r :: rest)

/-- The `args` list of an event (`first.get("args", [])`). -/
def argsOf (e : JVal) : List (List Nat) :=
  match jget e (ascii "args") with
  | some (JVal.arr xs) => strsOfArr xs
  | _ => []

/-- The replay argument string verify reconstructs:
`" ".join(ref.get("events", [{}])[0].get("args", [])) if ref.get("events") else None`
(an absent or empty `events` list is falsy). -/
def verifyArgsLine (ref : JVal) : Option (List Nat) :=
  match jget ref (ascii "events") with
  | some (JVal.arr (e :: _)) => some (joinSpace (argsOf e))
  | _ => none

/-- `verify_run`: re-run the target with the replayed argument string (an
exception of the re-run propagates), then compare. -/
def verify_run (ref : JVal) (target : List Nat) (seed : Int) (allow_net : Bool)
    (amb : Ambient) (behavior : List (List Nat) → RunBehavior) (g : Glob) :
    Except PyExc VerifyResult :=
  let r := run_instrumented target (verifyArgsLine ref) seed allow_net amb behavior g
  match r.outcome with
  | Except.error e => Except.error e
  | Except.ok now =>
      Except.ok (verdictOf (refEventsD ref) now.events
        (jget ref (ascii "root_hash")) (some (JVal.str now.root_hash)))

/-! ### Shared concrete fixtures for counterexamples and witnesses -/

/-- A constant ambient clock token (`round(rel, 6)` serialized as `0.0`). -/
def demoTs : Nat → List Nat := fun _ => ascii "0.0"

/-- Ambient inputs of a demonstration run (numpy absent). -/
def demoAmb : Ambient :=
  { ts := demoTs, startWall := ascii "2025-01-01T00:00:00Z", env := JVal.null,
    targetAbs := ascii "/work/target.py", numpyPresent := false }

/-- Initial process-wide state with three original implementations installed. -/
def demoGlob : Glob :=
  { openImpl := CapVal.real 0, socketImpl := CapVal.real 1,
    popenImpl := CapVal.real 2, argv := [ascii "merklerun.py"] }

/-- A target that performs no boundary operation and completes normally. -/
def behaviorNothing : List (List Nat) → RunBehavior :=
  fun _ => { emits := [], outcome := PyOutcome.ok }

/-- A concrete propagating exception of the target. -/
def demoExc : PyExc := PyExc.other (ascii "ValueError(boom)")

/-- A target that raises `demoExc` without performing boundary operations. -/
def behaviorRaise : List (List Nat) → RunBehavior :=
  fun _ => { emits := [], outcome := PyOutcome.exc demoExc }

/-- A logger holding one demonstration event. -/
def demoSt : EventLogger := EventLogger.log demoTs initLogger (ascii "begin") []

/-- A reference manifest whose first (and only) event has no `args` field. -/
def refC9 : JVal :=
  JVal.obj [(ascii "events", JVal.arr [JVal.obj
              [(ascii "kind", JVal.str (ascii "begin")),
               (ascii "target", JVal.str (ascii "/work/target.py"))]]),
            (ascii "root_hash", JVal.str (ascii "deadbeef"))]

/-- Whether verify completed without raising. -/
def isOkVerify : Except PyExc VerifyResult → Bool
  | Except.ok _ => true
  | Except.error _ => false

/-- The concatenation of the encoded bytes of a sequence of write payloads. -/
def concatBytes (ps : List PyData) : List Nat :=
  ps.foldr (fun p acc => pyEncode p ++ acc) []

/-! ### Definitions for the chain-recurrence claim -/

/-- Remove the embedded `chain` entry, recovering the event dictionary whose
canonical form was hashed before the chain field was added. -/
def stripChain : JVal → JVal
  | JVal.obj kvs => JVal.obj (kvs.filter (fun kv => !(kv.1 == ascii "chain")))
  | v => v

/-- The chain value stored with an event. -/
def chainValOf (e : JVal) : List Nat :=
  match jget e (ascii "chain") with
  | some (JVal.str h) => h
  | _ => []

/-- The hash the i-th event chains against: the all-zero seed for the first
event, otherwise the previous event's stored chain value. -/
def prevChainOf (evs : List JVal) : Nat → List Nat
  | 0 => zeros64
  | i + 1 => chainValOf (evs.getD i JVal.null)

/-- The chain recurrence holding of a logger state: the running hash equals
the last stored chain value, and every stored event chains correctly. -/
def ChainOk (st : EventLogger) : Prop :=
  st.prev_hash = prevChainOf st.events st.events.length ∧
  ∀ i < st.events.length,
    jget (st.events.getD i JVal.null) (ascii "chain")
      = some (JVal.str (chainStep (prevChainOf st.events i)
          (stripChain (st.events.getD i JVal.null))))

/-! ### Definitions for the verify claims -/

/-- The per-index field divergences as the spec sentence describes them:
of the six fields, those whose two optional lookups disagree, in order. -/
def specFieldDiffs (i : Nat) (ea eb : JVal) : List DiffEntry :=
  (sixKeys.filter (fun k => !jbeqOpt (jget ea k) (jget eb k))).map
    (fun k => DiffEntry.field i k (jget ea k) (jget eb k))

/-- Comparison as the (amended) spec sentence describes it: indices up to the
shorter length, `kind` first with short-circuit, otherwise the six-field
divergences, and exactly one trailing length-mismatch divergence. -/
def compareSpec (a b : List JVal) : List DiffEntry :=
  ((List.range (min a.length b.length)).map (fun i =>
      if jbeqOpt (jget (a.getD i JVal.null) (ascii "kind"))
           (jget (b.getD i JVal.null) (ascii "kind")) then
        specFieldDiffs i (a.getD i JVal.null) (b.getD i JVal.null)
      else
        [DiffEntry.field i (ascii "kind") (jget (a.getD i JVal.null) (ascii "kind"))
          (jget (b.getD i JVal.null) (ascii "kind"))])).flatten
  ++ (if a.length = b.length then [] else [DiffEntry.len a.length b.length])

/-- An event defining `kind` and `path` compared against one defining only
`kind`. -/
def evSixA : JVal :=
  JVal.obj [(ascii "kind", JVal.str (ascii "file_open")), (ascii "path", JVal.str (ascii "/a"))]

/-- The counterpart event without the `path` field. -/
def evSixB : JVal := JVal.obj [(ascii "kind", JVal.str (ascii "file_open"))]

/-- A reference manifest whose single `begin` event carries `args = ["x"]`. -/
def refCA : JVal :=
  JVal.obj [(ascii "events", JVal.arr [JVal.obj
    [(ascii "kind", JVal.str (ascii "begin")),
     (ascii "args", JVal.arr [JVal.str (ascii "x")])]])]

/-- The same reference manifest except that the `begin` event has no `args`
field (it agrees with `refCA` on `kind` and on all six compared fields). -/
def refCB : JVal :=
  JVal.obj [(ascii "events", JVal.arr [JVal.obj
    [(ascii "kind", JVal.str (ascii "begin"))]])]

/-- A target whose boundary behaviour depends on its argv tail: with
arguments it opens one file, without arguments it does nothing. -/
def behaviorArgsSensitive : List (List Nat) → RunBehavior :=
  fun tail =>
    if tail.isEmpty then { emits := [], outcome := PyOutcome.ok }
    else { emits := [(ascii "file_open",
             [(ascii "path", JVal.str (ascii "/x")), (ascii "mode", JVal.str (ascii "r"))])],
           outcome := PyOutcome.ok }

/-- The (reference length, observed length) payloads of the length-mismatch
divergences in a divergence list. -/
def lenEntries : List DiffEntry → List (Nat × Nat)
  | [] => []
  | DiffEntry.len a b :: rest => (a, b) :: lenEntries rest
  | DiffEntry.field _ _ _ _ :: rest => lenEntries rest

/-- A reference with no events and root hash `aa`. -/
def refRootA : JVal :=
  JVal.obj [(ascii "events", JVal.arr []), (ascii "root_hash", JVal.str (ascii "aa"))]

/-- The same reference with root hash `bb`. -/
def refRootB : JVal :=
  JVal.obj [(ascii "events", JVal.arr []), (ascii "root_hash", JVal.str (ascii "bb"))]

/-! ### Definitions for the determinism claim -/

/-- A clock whose first rounded reading serializes as `0.000001` (all later
ones as `0.0`); `demoTs` serializes every reading as `0.0`. -/
def demoTsLate : Nat → List Nat := fun i => if i = 0 then ascii "0.000001" else ascii "0.0"

/-- The ambient inputs of `demoAmb` with the clock replaced by `demoTsLate`:
all boundary inputs (filesystem, network, argv, target behaviour, seed,
policy, environment) are identical, only the timing differs. -/
def demoAmbLate : Ambient :=
  { ts := demoTsLate, startWall := ascii "2025-01-01T00:00:00Z", env := JVal.null,
    targetAbs := ascii "/work/target.py", numpyPresent := false }

/-- The root hash a run returns (empty on the failure path, which returns no
manifest). -/
def rootOf (r : RunResult) : List Nat :=
  match r.outcome with
  | Except.ok m => m.root_hash
  | Except.error _ => []
/-- Two demonstration log calls. -/
def demoItems : List (List Nat × List (List Nat × JVal)) :=
  [(ascii "begin", []), (ascii "end", [(ascii "status", JVal.str (ascii "ok"))])]

/-! ### Model validation against external references -/

-- sanity: the serializer byte-for-byte matches a cross-checked
-- `json.dumps(..., sort_keys=True, separators=(",", ":"))` output
example :
    serialize (JVal.obj [(ascii "t", JVal.num (ascii "0.0")),
      (ascii "kind", JVal.str (ascii "begin")), (ascii "args", JVal.arr [JVal.str (ascii "x")])])
      = ascii "\x7b\"args\":[\"x\"],\"kind\":\"begin\",\"t\":0.0\x7d" := by
  decide

-- sanity: SHA-256 test vector
example : hexdigest (ascii "abc") =
    ascii "ba7816bf8f01cfea414140de5dae2223b00361a396177a9cb410ff61f20015ad" := by decide

/-! ### C4: deny-policy network interception -/

/-- C4: with the network policy denied, each of connect, send and recv on the
intercepted socket raises the policy-violation `PermissionError`, appends
exactly one corresponding `net_block` / `net_block_send` / `net_block_recv`
event, and performs no real network operation. -/
theorem C4_deny_policy_blocks_and_logs_once (ts : Nat → List Nat) (st : EventLogger)
    (host : List Nat) (port : Nat) (data : List Nat) (bufsize : Nat) (recvData : List Nat) :
    (SocketShim.connect false ts st host port =
      (EventLogger.log ts st (ascii "net_block")
         [(ascii "host", JVal.str host), (ascii "port", JVal.num (natTok port))],
       [], Except.error (PyExc.permissionError netMsg)) ∧
     (SocketShim.connect false ts st host port).1.events
       = st.events ++ [eventOf ts st (ascii "net_block")
           [(ascii "host", JVal.str host), (ascii "port", JVal.num (natTok port))]]) ∧
    (SocketShim.send false ts st data =
      (EventLogger.log ts st (ascii "net_block_send")
         [(ascii "bytes", JVal.num (natTok data.length))],
       [], Except.error (PyExc.permissionError netMsg)) ∧
     (SocketShim.send false ts st data).1.events
       = st.events ++ [eventOf ts st (ascii "net_block_send")
           [(ascii "bytes", JVal.num (natTok data.length))]]) ∧
    (SocketShim.recv false ts st bufsize recvData =
      (EventLogger.log ts st (ascii "net_block_recv")
         [(ascii "req", JVal.num (natTok bufsize))],
       [], Except.error (PyExc.permissionError netMsg)) ∧
     (SocketShim.recv false ts st bufsize recvData).1.events
       = st.events ++ [eventOf ts st (ascii "net_block_recv")
           [(ascii "req", JVal.num (natTok bufsize))]]) :=
  ⟨⟨rfl, rfl⟩, ⟨rfl, rfl⟩, ⟨rfl, rfl⟩⟩

/-! ### C8: restoration on every exit path -/

/-- C8: on both exit paths of `run_instrumented` (normal completion and
propagating failure) the original open, socket and process-spawn
implementations and the pre-run `sys.argv` are restored exactly: the final
process-wide state equals the initial one. -/
theorem C8_restores_capabilities_and_argv (target : List Nat)
    (args_line : Option (List Nat)) (seed : Int) (allow_net : Bool) (amb : Ambient)
    (behavior : List (List Nat) → RunBehavior) (g : Glob) :
    (run_instrumented target args_line seed allow_net amb behavior g).glob = g := by
  unfold run_instrumented
  cases hb : (behavior (argvTailOf args_line)).outcome <;> simp [hb]

/-! ### C2: failure semantics of run_instrumented -/

/-- C2 counterexample: on a target that raises, `run_instrumented` propagates
the exception and does not produce a manifest — its outcome is the error, not
a manifest, contradicting the claim that the manifest is still produced. -/
theorem C2_no_manifest_on_failure_counterexample :
    (run_instrumented (ascii "target.py") none 1337 false demoAmb behaviorRaise
      demoGlob).outcome = Except.error demoExc := rfl

/-- C2 (amended): if the target raises a propagating exception `e`, then
`run_instrumented` appends, as its final logger action before the caller
observes anything, an `end` event with status `"exception"` and the error's
`repr` (type and message, no stack trace), and propagates `e` to the caller;
no manifest is produced on this path. -/
theorem C2_end_exception_logged_and_propagated (target : List Nat)
    (args_line : Option (List Nat)) (seed : Int) (allow_net : Bool) (amb : Ambient)
    (behavior : List (List Nat) → RunBehavior) (g : Glob) (e : PyExc)
    (hexc : (behavior (argvTailOf args_line)).outcome = PyOutcome.exc e) :
    (run_instrumented target args_line seed allow_net amb behavior g).outcome
      = Except.error e ∧
    (run_instrumented target args_line seed allow_net amb behavior g).logger
      = EventLogger.log amb.ts
          (loggerBeforeEnd seed amb (argvTailOf args_line)
            (behavior (argvTailOf args_line)).emits)
          (ascii "end")
          [(ascii "status", JVal.str (ascii "exception")),
           (ascii "error", JVal.str (pyRepr e))] ∧
    (run_instrumented target args_line seed allow_net amb behavior g).logger.events
      = (loggerBeforeEnd seed amb (argvTailOf args_line)
          (behavior (argvTailOf args_line)).emits).events
        ++ [eventOf amb.ts
             (loggerBeforeEnd seed amb (argvTailOf args_line)
               (behavior (argvTailOf args_line)).emits)
             (ascii "end")
             [(ascii "status", JVal.str (ascii "exception")),
              (ascii "error", JVal.str (pyRepr e))]] := by
  unfold run_instrumented
  simp [hexc]
  rfl

/-- C2 witness: the amended theorem applied to a concrete raising target. -/
theorem C2_end_exception_logged_and_propagated_witness :
    (behaviorRaise (argvTailOf none)).outcome = PyOutcome.exc demoExc ∧
    (run_instrumented (ascii "t.py") none 1337 false demoAmb behaviorRaise
      demoGlob).outcome = Except.error demoExc :=
  ⟨rfl, (C2_end_exception_logged_and_propagated (ascii "t.py") none 1337 false demoAmb
    behaviorRaise demoGlob demoExc rfl).1⟩

/-! ### C7: no finalize-once enforcement -/

/-- C7 counterexample: after `manifest` has been computed, a further `log`
call is silently accepted (the logger has no error channel and the event is
appended), and a second `manifest` call also succeeds and reflects the later
append — contradicting the claim that finalize is callable exactly once and
later appends are rejected as errors. -/
theorem C7_append_after_finalize_counterexample :
    (EventLogger.manifest (ascii "w") 1337 false JVal.null demoSt).events.length = 1 ∧
    (EventLogger.log demoTs demoSt (ascii "end") []).events.length = 2 ∧
    (EventLogger.manifest (ascii "w") 1337 false JVal.null
      (EventLogger.log demoTs demoSt (ascii "end") [])).events.length = 2 :=
  ⟨rfl, rfl, rfl⟩

/-- C7 (amended): `manifest` is a pure observation of the logger state,
callable any number of times; an append after a `manifest` call is silently
accepted — `log` appends unconditionally — and is reflected by later
`manifest` calls. -/
theorem C7_finalize_observation_appends_accepted (startWall : List Nat) (seed : Int)
    (allow_net : Bool) (env : JVal) (ts : Nat → List Nat) (st : EventLogger)
    (kind : List Nat) (fields : List (List Nat × JVal)) :
    (EventLogger.log ts st kind fields).events
      = st.events ++ [eventOf ts st kind fields] ∧
    (EventLogger.manifest startWall seed allow_net env st).events = st.events ∧
    (EventLogger.manifest startWall seed allow_net env
      (EventLogger.log ts st kind fields)).events
      = st.events ++ [eventOf ts st kind fields] :=
  ⟨rfl, rfl, rfl⟩

/-! ### C9: verify with a first reference event lacking args -/

/-- C9: when the reference's first event lacks an `args` field, `verify_run`
does not fail: it reconstructs the empty argument string (the join over the
`.get("args", [])` default), runs the target with an empty argv tail, and
completes normally — there is no `ManifestFormatError` anywhere in the code. -/
theorem C9_missing_args_silently_empty :
    verifyArgsLine refC9 = some [] ∧
    argvTailOf (verifyArgsLine refC9) = [] ∧
    isOkVerify (verify_run refC9 (ascii "target.py") 1337 false demoAmb
      behaviorNothing demoGlob) = true :=
  ⟨rfl, rfl, rfl⟩

/-! ### C5: write hashing and the close event -/

/-- Accumulation of `IOShim.write` over a payload sequence: the byte count is
the total encoded length, the hasher input is the concatenation, and the
constructor arguments are untouched. -/
theorem writeAll_accumulates (ps : List PyData) : ∀ sh : IOShim,
    (IOShim.writeAll sh ps).written = sh.written + (concatBytes ps).length ∧
    (IOShim.writeAll sh ps).hashed = sh.hashed ++ concatBytes ps ∧
    (IOShim.writeAll sh ps).mode = sh.mode := by
  induction ps with
  | nil => intro sh; simp [IOShim.writeAll, concatBytes]
  | cons p ps ih =>
      intro sh
      obtain ⟨h1, h2, h3⟩ := ih ((IOShim.write sh p).1)
      have e : IOShim.writeAll sh (p :: ps) = IOShim.writeAll ((IOShim.write sh p).1) ps := rfl
      rw [e, h1, h2, h3]
      simp [IOShim.write, concatBytes, Nat.add_assoc]

/-- C5: opening a file in a write/append/exclusive-creation mode returns the
wrapping handle with zeroed counters, and closing it after any sequence of
`write` calls emits the `file_write_close` event exactly once, whose `bytes`
field is the total number of (encoded) bytes passed to `write` and whose
`sha256` field is the SHA-256 of the concatenation of exactly those bytes. -/
theorem C5_file_write_close_bytes_and_sha (ts : Nat → List Nat) (st : EventLogger)
    (path abspath mode : List Nat) (fileExists : Bool) (fsize : Nat) (fsha : List Nat)
    (f : Nat) (ps : List PyData) (hwax : modeWAX mode = true) :
    (open_wrapper ts st path abspath mode fileExists fsize fsha f).2
      = OpenResult.shim { f := f, path := path, mode := mode, written := 0, hashed := [] } ∧
    IOShim.close ts (open_wrapper ts st path abspath mode fileExists fsize fsha f).1
        (IOShim.writeAll { f := f, path := path, mode := mode, written := 0, hashed := [] } ps)
        abspath
      = EventLogger.log ts (open_wrapper ts st path abspath mode fileExists fsize fsha f).1
          (ascii "file_write_close")
          [(ascii "path", JVal.str abspath),
           (ascii "bytes", JVal.num (natTok (concatBytes ps).length)),
           (ascii "sha256", JVal.str (hexdigest (concatBytes ps)))] ∧
    (IOShim.close ts (open_wrapper ts st path abspath mode fileExists fsize fsha f).1
        (IOShim.writeAll { f := f, path := path, mode := mode, written := 0, hashed := [] } ps)
        abspath).events
      = (open_wrapper ts st path abspath mode fileExists fsize fsha f).1.events
        ++ [eventOf ts (open_wrapper ts st path abspath mode fileExists fsize fsha f).1
             (ascii "file_write_close")
             [(ascii "path", JVal.str abspath),
              (ascii "bytes", JVal.num (natTok (concatBytes ps).length)),
              (ascii "sha256", JVal.str (hexdigest (concatBytes ps)))]] := by
  obtain ⟨h1, h2, h3⟩ := writeAll_accumulates ps
    { f := f, path := path, mode := mode, written := 0, hashed := [] }
  have hclose :
      IOShim.close ts (open_wrapper ts st path abspath mode fileExists fsize fsha f).1
        (IOShim.writeAll { f := f, path := path, mode := mode, written := 0, hashed := [] } ps)
        abspath
      = EventLogger.log ts (open_wrapper ts st path abspath mode fileExists fsize fsha f).1
          (ascii "file_write_close")
          [(ascii "path", JVal.str abspath),
           (ascii "bytes", JVal.num (natTok (concatBytes ps).length)),
           (ascii "sha256", JVal.str (hexdigest (concatBytes ps)))] := by
    rw [IOShim.close, h3, hwax, h1, h2]
    simp
  refine ⟨?_, hclose, ?_⟩
  · rw [open_wrapper, hwax]
    simp
  · rw [hclose]
    rfl

/-- C5 witness: a concrete binary-plus-text write sequence through a `"wb"`
handle. -/
theorem C5_file_write_close_bytes_and_sha_witness :
    modeWAX (ascii "wb") = true ∧
    (open_wrapper demoTs demoSt (ascii "out.bin") (ascii "/work/out.bin") (ascii "wb")
      false 0 [] 7).2
      = OpenResult.shim { f := 7, path := ascii "out.bin", mode := ascii "wb",
                          written := 0, hashed := [] } :=
  ⟨rfl, (C5_file_write_close_bytes_and_sha demoTs demoSt (ascii "out.bin")
    (ascii "/work/out.bin") (ascii "wb") false 0 [] 7
    [PyData.bytes [1, 2, 3], PyData.str (ascii "hi")] rfl).1⟩


/-! ### Helper lemmas -/

/-- Folding list-append over a list equals the initial segment followed by
the flattened image. -/
theorem foldl_append_eq_flatten {α β : Type} (l : List α) (f : α → List β) :
    ∀ init : List β,
      l.foldl (fun acc x => acc ++ f x) init = init ++ (l.map f).flatten := by
  induction l with
  | nil => intro init; simp
  | cons x xs ih => intro init; simp [List.foldl, ih, List.append_assoc]

/-- An append-accumulating conditional fold is the filtered, mapped list. -/
theorem foldl_if_filter {κ β : Type} (p : κ → Bool) (g : κ → β) (keys : List κ) :
    ∀ init : List β,
      keys.foldl (fun acc k => if p k then acc else acc ++ [g k]) init
        = init ++ (keys.filter (fun k => !p k)).map g := by
  induction keys with
  | nil => intro init; simp
  | cons k ks ih =>
      intro init
      cases h : p k <;> simp [List.foldl, h, ih, List.append_assoc]

/-- Append-accumulating folds agree when the appended pieces agree. -/
theorem foldl_append_congr {α β : Type} (l : List α) (f1 f2 : α → List β)
    (h : ∀ x ∈ l, f1 x = f2 x) :
    ∀ init : List β,
      l.foldl (fun acc x => acc ++ f1 x) init = l.foldl (fun acc x => acc ++ f2 x) init := by
  induction l with
  | nil => intro init; rfl
  | cons x xs ih =>
      intro init
      have hx := h x (by simp)
      simp only [List.foldl]
      rw [hx]
      exact ih (fun y hy => h y (by simp [hy])) _

/-- The comparison loop coincides with the spec-side description. -/
theorem compare_eq_spec (a b : List JVal) : compareEvents a b = compareSpec a b := by
  have hpair : ∀ i : Nat,
      comparePair i (a.getD i JVal.null) (b.getD i JVal.null)
        = (if jbeqOpt (jget (a.getD i JVal.null) (ascii "kind"))
              (jget (b.getD i JVal.null) (ascii "kind")) then
             specFieldDiffs i (a.getD i JVal.null) (b.getD i JVal.null)
           else
             [DiffEntry.field i (ascii "kind") (jget (a.getD i JVal.null) (ascii "kind"))
               (jget (b.getD i JVal.null) (ascii "kind"))]) := by
    intro i
    unfold comparePair specFieldDiffs
    cases h : jbeqOpt (jget (a.getD i JVal.null) (ascii "kind"))
        (jget (b.getD i JVal.null) (ascii "kind"))
    · simp [h]
    · simp only [h, Bool.not_true, if_neg, if_pos, Bool.false_eq_true, not_false_iff]
      rw [foldl_if_filter]
      simp
  unfold compareEvents compareSpec
  rw [foldl_append_congr (List.range (min a.length b.length)) _ _ (fun i _ => hpair i)]
  rw [foldl_append_eq_flatten]
  cases h : decide (a.length = b.length) <;> simp_all

/-! ### C6: the verify comparison -/

/-- C6 counterexample: at an index where the kinds match, the reference
defines `path` and the observation does not, the code reports one divergence
and `ok` is false — whereas the claim's comparison "only wherever both sides
define them" would find no divergence and report `ok = true`. -/
theorem C6_one_sided_field_counterexample :
    compareEvents [evSixA] [evSixB]
      = [DiffEntry.field 0 (ascii "path") (some (JVal.str (ascii "/a"))) none] ∧
    (verdictOf [evSixA] [evSixB] none none).ok = false :=
  ⟨rfl, rfl⟩

/-- C6 (amended): verify compares index-by-index up to the shorter length,
`kind` first with short-circuit; when kinds match it compares exactly the six
fields `path`, `sha256`, `bytes`, `cmd`, `host`, `port` through optional
lookup, so that a field absent on both sides is no divergence but a field
defined on exactly one side is one; a length mismatch is reported as exactly
one divergence; and `ok` is true iff the divergence list is empty. -/
theorem C6_compare_matches_spec_and_ok (a b : List JVal) (rroot nroot : Option JVal) :
    compareEvents a b = compareSpec a b ∧
    ((verdictOf a b rroot nroot).ok = true ↔ (verdictOf a b rroot nroot).diffs = []) := by
  refine ⟨compare_eq_spec a b, ?_⟩
  unfold verdictOf
  simp [List.isEmpty_iff]

/-! ### C10: verify reads neither chain hashes nor the root hash -/

/-- The six-field divergences only depend on the six optional lookups. -/
theorem specFieldDiffs_congr_left (i : Nat) (ea1 ea2 eb : JVal)
    (hs : ∀ k ∈ sixKeys, jget ea1 k = jget ea2 k) :
    specFieldDiffs i ea1 eb = specFieldDiffs i ea2 eb := by
  unfold specFieldDiffs
  have hkeys : ∀ keys : List (List Nat), (∀ k ∈ keys, jget ea1 k = jget ea2 k) →
      (keys.filter (fun k => !jbeqOpt (jget ea1 k) (jget eb k))).map
          (fun k => DiffEntry.field i k (jget ea1 k) (jget eb k))
        = (keys.filter (fun k => !jbeqOpt (jget ea2 k) (jget eb k))).map
          (fun k => DiffEntry.field i k (jget ea2 k) (jget eb k)) := by
    intro keys
    induction keys with
    | nil => intro _; rfl
    | cons k ks ih =>
        intro hk2
        have hk := hk2 k (by simp)
        have ih2 := ih (fun y hy => hk2 y (by simp [hy]))
        simp only [List.filter_cons, hk]
        cases h : !jbeqOpt (jget ea2 k) (jget eb k) <;>
          simp [h, List.map_cons, ih2, hk]
  exact hkeys sixKeys hs

/-- The comparison only reads each reference event's `kind` and six fields
and the two lengths. -/
theorem compareEvents_congr_left (a1 a2 b : List JVal)
    (hlen : a1.length = a2.length)
    (hpt : ∀ i : Nat,
      jget (a1.getD i JVal.null) (ascii "kind") = jget (a2.getD i JVal.null) (ascii "kind") ∧
      ∀ k ∈ sixKeys, jget (a1.getD i JVal.null) k = jget (a2.getD i JVal.null) k) :
    compareEvents a1 b = compareEvents a2 b := by
  rw [compare_eq_spec, compare_eq_spec]
  unfold compareSpec
  rw [hlen]
  have hmap : ∀ i ∈ List.range (min a2.length b.length),
      (if jbeqOpt (jget (a1.getD i JVal.null) (ascii "kind"))
           (jget (b.getD i JVal.null) (ascii "kind")) then
         specFieldDiffs i (a1.getD i JVal.null) (b.getD i JVal.null)
       else
         [DiffEntry.field i (ascii "kind") (jget (a1.getD i JVal.null) (ascii "kind"))
           (jget (b.getD i JVal.null) (ascii "kind"))])
      = (if jbeqOpt (jget (a2.getD i JVal.null) (ascii "kind"))
           (jget (b.getD i JVal.null) (ascii "kind")) then
         specFieldDiffs i (a2.getD i JVal.null) (b.getD i JVal.null)
       else
         [DiffEntry.field i (ascii "kind") (jget (a2.getD i JVal.null) (ascii "kind"))
           (jget (b.getD i JVal.null) (ascii "kind"))]) := by
    intro i _
    rw [(hpt i).1, specFieldDiffs_congr_left i _ _ _ (hpt i).2]
  congr 1
  congr 1
  exact List.map_congr_left hmap

/-- C10 (amended): two reference manifests that agree on their event lists'
length, on every event's `kind` and six compared fields, and on the argument
string verify reconstructs from the first event, make `verify_run` return the
same `ok` and the same divergence list — chain hashes and `root_hash` of the
reference are never recomputed or validated. -/
theorem C10_verify_ignores_chain_and_root (refA refB : JVal) (target : List Nat)
    (seed : Int) (allow_net : Bool) (amb : Ambient)
    (behavior : List (List Nat) → RunBehavior) (g : Glob)
    (hlen : (refEventsD refA).length = (refEventsD refB).length)
    (hpt : ∀ i : Nat,
      jget ((refEventsD refA).getD i JVal.null) (ascii "kind")
        = jget ((refEventsD refB).getD i JVal.null) (ascii "kind") ∧
      ∀ k ∈ sixKeys,
        jget ((refEventsD refA).getD i JVal.null) k
          = jget ((refEventsD refB).getD i JVal.null) k)
    (hargs : verifyArgsLine refA = verifyArgsLine refB) :
    (verify_run refA target seed allow_net amb behavior g).map (fun r => (r.ok, r.diffs))
      = (verify_run refB target seed allow_net amb behavior g).map (fun r => (r.ok, r.diffs)) := by
  have hcmp : ∀ evs : List JVal,
      compareEvents (refEventsD refA) evs = compareEvents (refEventsD refB) evs :=
    fun evs => compareEvents_congr_left _ _ evs hlen hpt
  simp only [verify_run]
  rw [hargs]
  cases hr : (run_instrumented target (verifyArgsLine refB) seed allow_net amb behavior g).outcome with
  | error e => rfl
  | ok now => simp [Except.map, verdictOf, hcmp now.events]

/-- C10 witness: two event-free references differing only in `root_hash`. -/
theorem C10_verify_ignores_chain_and_root_witness :
    (refEventsD refRootA).length = (refEventsD refRootB).length ∧
    verifyArgsLine refRootA = verifyArgsLine refRootB ∧
    (verify_run refRootA (ascii "t.py") 1337 false demoAmb behaviorNothing demoGlob).map
        (fun r => (r.ok, r.diffs))
      = (verify_run refRootB (ascii "t.py") 1337 false demoAmb behaviorNothing demoGlob).map
        (fun r => (r.ok, r.diffs)) :=
  ⟨rfl, rfl, C10_verify_ignores_chain_and_root refRootA refRootB (ascii "t.py") 1337 false
    demoAmb behaviorNothing demoGlob rfl (fun _ => ⟨rfl, fun _ _ => rfl⟩) rfl⟩

/-- C10 counterexample: the two references `refCA` and `refCB` have the same
length and agree at every index on `kind` and on all six compared fields, yet
verify returns different divergence lists (length divergence `(1, 5)` against
`(1, 4)`): the replayed argument string, reconstructed from the first event's
`args` field, differs, so the re-run differs. -/
theorem C10_args_field_counterexample :
    (verify_run refCA (ascii "t.py") 1337 false demoAmb behaviorArgsSensitive demoGlob).map
        (fun r => lenEntries r.diffs) = Except.ok [(1, 5)] ∧
    (verify_run refCB (ascii "t.py") 1337 false demoAmb behaviorArgsSensitive demoGlob).map
        (fun r => lenEntries r.diffs) = Except.ok [(1, 4)] :=
  ⟨rfl, rfl⟩

/-! ### C3: the chain recurrence -/

/-- Looking a key up past entries with other keys finds the appended entry. -/
theorem lookupKV_append_last (k : List Nat) (v : JVal) (l : List (List Nat × JVal))
    (h : ∀ kv ∈ l, kv.1 ≠ k) :
    lookupKV k (l ++ [(k, v)]) = some v := by
  induction l with
  | nil => simp [lookupKV]
  | cons x xs ih =>
      obtain ⟨k2, v2⟩ := x
      have hx : k2 ≠ k := h (k2, v2) (by simp)
      simp only [List.cons_append, lookupKV, if_neg hx]
      exact ih (fun y hy => h y (by simp [hy]))

/-- Filtering away a key that no entry carries changes nothing. -/
theorem filter_keys_ne (k : List Nat) (l : List (List Nat × JVal))
    (h : ∀ kv ∈ l, kv.1 ≠ k) :
    l.filter (fun kv => !(kv.1 == k)) = l := by
  induction l with
  | nil => rfl
  | cons x xs ih =>
      obtain ⟨k2, v2⟩ := x
      have hx : k2 ≠ k := h (k2, v2) (by simp)
      simp [List.filter_cons, hx, ih (fun y hy => h y (by simp [hy]))]

/-- A stored event exposes its chain value under the `chain` key, and
stripping that key recovers the hashed base dictionary. -/
theorem eventOf_chain_lookup (ts : Nat → List Nat) (st : EventLogger) (kind : List Nat)
    (fields : List (List Nat × JVal)) (hf : ∀ kv ∈ fields, kv.1 ≠ ascii "chain") :
    jget (eventOf ts st kind fields) (ascii "chain")
      = some (JVal.str (chainStep st.prev_hash (JVal.obj (eventBase ts st kind fields)))) ∧
    stripChain (eventOf ts st kind fields) = JVal.obj (eventBase ts st kind fields) := by
  have hbase : ∀ kv ∈ eventBase ts st kind fields, kv.1 ≠ ascii "chain" := by
    intro kv hkv
    rcases List.mem_cons.mp hkv with h1 | hkv2
    · rw [h1]
      show ascii "t" ≠ ascii "chain"
      decide
    · rcases List.mem_cons.mp hkv2 with h2 | hkv3
      · rw [h2]
        show ascii "kind" ≠ ascii "chain"
        decide
      · exact hf kv hkv3
  constructor
  · exact lookupKV_append_last _ _ _ hbase
  · show JVal.obj (List.filter _ (eventBase ts st kind fields ++ [_])) = _
    rw [List.filter_append, filter_keys_ne _ _ hbase]
    simp

/-- One `log` call preserves the chain recurrence. -/
theorem log_preserves_ChainOk (ts : Nat → List Nat) (st : EventLogger) (kind : List Nat)
    (fields : List (List Nat × JVal)) (hf : ∀ kv ∈ fields, kv.1 ≠ ascii "chain")
    (hok : ChainOk st) : ChainOk (EventLogger.log ts st kind fields) := by
  obtain ⟨hprev, hall⟩ := hok
  obtain ⟨hlook, hstrip⟩ := eventOf_chain_lookup ts st kind fields hf
  have hev : chainValOf (eventOf ts st kind fields)
      = chainStep st.prev_hash (JVal.obj (eventBase ts st kind fields)) := by
    unfold chainValOf
    rw [hlook]
  have hgetOld : ∀ i < st.events.length,
      (EventLogger.log ts st kind fields).events.getD i JVal.null
        = st.events.getD i JVal.null := by
    intro i hi
    exact List.getD_append _ _ _ _ hi
  have hgetNew :
      (EventLogger.log ts st kind fields).events.getD st.events.length JVal.null
        = eventOf ts st kind fields := by
    show (st.events ++ [eventOf ts st kind fields]).getD st.events.length JVal.null = _
    rw [List.getD_append_right _ _ _ _ (Nat.le_refl _)]
    simp
  have hprevOf : ∀ i ≤ st.events.length,
      prevChainOf (EventLogger.log ts st kind fields).events i
        = prevChainOf st.events i := by
    intro i hi
    cases i with
    | zero => rfl
    | succ j =>
        show chainValOf ((EventLogger.log ts st kind fields).events.getD j JVal.null)
          = chainValOf (st.events.getD j JVal.null)
        rw [hgetOld j (by omega)]
  have hlen : (EventLogger.log ts st kind fields).events.length = st.events.length + 1 := by
    show (st.events ++ [eventOf ts st kind fields]).length = st.events.length + 1
    simp
  constructor
  · show chainStep st.prev_hash (JVal.obj (eventBase ts st kind fields))
      = prevChainOf (EventLogger.log ts st kind fields).events
          (EventLogger.log ts st kind fields).events.length
    rw [hlen]
    show _ = chainValOf ((EventLogger.log ts st kind fields).events.getD
      st.events.length JVal.null)
    rw [hgetNew, hev]
  · intro i hi
    rw [hlen] at hi
    rcases Nat.lt_succ_iff_lt_or_eq.mp hi with hlt | heq
    · rw [hgetOld i hlt, hprevOf i (Nat.le_of_lt hlt)]
      exact hall i hlt
    · subst heq
      rw [hgetNew, hprevOf st.events.length (Nat.le_refl _), hlook, hstrip]
      rw [← hprev]

/-- A sequence of `log` calls whose fields avoid the key `chain` preserves
the chain recurrence. -/
theorem logMany_preserves_ChainOk (ts : Nat → List Nat)
    (items : List (List Nat × List (List Nat × JVal))) :
    ∀ st : EventLogger,
      (∀ it ∈ items, ∀ kv ∈ it.2, kv.1 ≠ ascii "chain") → ChainOk st →
      ChainOk (logMany ts st items) := by
  induction items with
  | nil => intro st _ h; exact h
  | cons it items ih =>
      intro st hf hok
      have e : logMany ts st (it :: items)
          = logMany ts (EventLogger.log ts st it.1 it.2) items := rfl
      rw [e]
      exact ih _ (fun y hy => hf y (by simp [hy]))
        (log_preserves_ChainOk ts st it.1 it.2 (hf it (by simp)) hok)

/-- A fresh logger satisfies the chain recurrence vacuously. -/
theorem initLogger_ChainOk : ChainOk initLogger := by
  constructor
  · rfl
  · intro i hi
    simp [initLogger] at hi

/-- C3: for every sequence of logged events (whose payload fields do not
themselves use the reserved key `chain`), the chain value stored with the
i-th event is the hash of the previous event's chain value concatenated with
the hash of the i-th event's canonical form taken before the chain field was
embedded, and the first event chains against the fixed seed of sixty-four
ASCII zeros. -/
theorem C3_chain_recurrence (ts : Nat → List Nat)
    (items : List (List Nat × List (List Nat × JVal)))
    (hfields : ∀ it ∈ items, ∀ kv ∈ it.2, kv.1 ≠ ascii "chain")
    (i : Nat) (hi : i < (logMany ts initLogger items).events.length) :
    prevChainOf (logMany ts initLogger items).events 0 = List.replicate 64 48 ∧
    jget ((logMany ts initLogger items).events.getD i JVal.null) (ascii "chain")
      = some (JVal.str (chainStep
          (prevChainOf (logMany ts initLogger items).events i)
          (stripChain ((logMany ts initLogger items).events.getD i JVal.null)))) :=
  ⟨rfl, (logMany_preserves_ChainOk ts items initLogger hfields initLogger_ChainOk).2 i hi⟩

/-- C3 witness: the recurrence at index 1 of a two-event log. -/
theorem C3_chain_recurrence_witness :
    (∀ it ∈ demoItems, ∀ kv ∈ it.2, kv.1 ≠ ascii "chain") ∧
    1 < (logMany demoTs initLogger demoItems).events.length ∧
    (prevChainOf (logMany demoTs initLogger demoItems).events 0 = List.replicate 64 48 ∧
     jget ((logMany demoTs initLogger demoItems).events.getD 1 JVal.null) (ascii "chain")
       = some (JVal.str (chainStep
           (prevChainOf (logMany demoTs initLogger demoItems).events 1)
           (stripChain ((logMany demoTs initLogger demoItems).events.getD 1 JVal.null))))) :=
  ⟨by decide, by decide, C3_chain_recurrence demoTs demoItems (by decide) 1 (by decide)⟩

/-! ### C1: root_hash is not independent of timing -/

/-- C1: two runs of the same target with identical seed, network policy,
argv, target behaviour and boundary inputs, differing only in the ambient
monotonic clock readings, return different `root_hash` values: the rounded
relative timestamp `t` is part of every event's chained canonical form and
of the root-hash payload `_hash_dict({"events": events})`, so the root hash
is not a function of the boundary event data alone. -/
theorem C1_root_hash_depends_on_timing :
    rootOf (run_instrumented (ascii "target.py") none 1337 false demoAmb
      behaviorNothing demoGlob)
    ≠ rootOf (run_instrumented (ascii "target.py") none 1337 false demoAmbLate
      behaviorNothing demoGlob) := by decide
